import Mathlib

/-!
# Verification of the request-deduplication and credential-refresh core

Shallow embedding of the service layer of the repository
(`src/services/login`, `src/services/brandProfile`, `src/services/userProfile`).
The claims under study concern the `LoginApiService` variant that keeps a
`requestCache : Map<string, Promise<any>>` (the variant whose line numbers the
claims cite), plus the `BrandProfileApiService` and `UserProfileApiService`
facades.

JavaScript's single-threaded cooperative concurrency is embedded as an explicit
state machine: each `async` method is split into its synchronous segments
(which are atomic in the event loop), and the settlement of the external
transport promise is a separate step.  External collaborators (the
`fetchPost`/`get` transport and `localStorage`) are recorded as observable
events in a trace, exactly as the repository's Jest tests observe them via
mocks.
-/

set_option autoImplicit false

namespace Buoy

/-! ## JWT decoding (`LoginApiService.parseJwt`)

The source decodes the access token with
`JSON.parse(decodeURIComponent(atob(base64url-fixed segment).split("").map(%xx).join("")))`.
`atob` is the WHATWG forgiving-base64 decoder; the `decodeURIComponent` over
percent-encoded bytes is exactly strict UTF-8 decoding of the byte string; any
failure in the chain throws and is caught by `getValidToken`'s `try`.
-/

/-- ASCII whitespace stripped by forgiving-base64 decode. -/
def isB64Ws (c : Char) : Bool :=
  c = ' ' || c = '\t' || c = '\n' || c = '\x0c' || c = '\r'

/-- Value of a base64 alphabet character, `none` for anything else. -/
def base64CharVal (c : Char) : Option Nat :=
  if 'A' ≤ c ∧ c ≤ 'Z' then some (c.toNat - 65)
  else if 'a' ≤ c ∧ c ≤ 'z' then some (c.toNat - 97 + 26)
  else if '0' ≤ c ∧ c ≤ '9' then some (c.toNat - 48 + 52)
  else if c = '+' then some 62
  else if c = '/' then some 63
  else none

/-- Remove up to two trailing `=` padding characters. -/
def stripB64Padding (l : List Char) : List Char :=
  match l.reverse with
  | '=' :: '=' :: rest => rest.reverse
  | '=' :: rest => rest.reverse
  | _ => l

/-- Turn a list of 6-bit values into bytes; a trailing group of one value is
invalid, trailing groups of two or three values yield one or two bytes with the
spare low bits discarded (forgiving-base64). -/
def b64GroupsToBytes : List Nat → Option (List Nat)
  | [] => some []
  | [_] => none
  | [a, b] => some [a * 4 + b / 16]
  | [a, b, c] => some [a * 4 + b / 16, (b % 16) * 16 + c / 4]
  | a :: b :: c :: d :: rest =>
    match b64GroupsToBytes rest with
    | some bs =>
      some ((a * 4 + b / 16) :: ((b % 16) * 16 + c / 4) :: ((c % 4) * 64 + d) :: bs)
    | none => none

/-- `window.atob`: forgiving-base64 decode to a byte list, `none` when the
browser would throw `InvalidCharacterError`. -/
def atob (s : List Char) : Option (List Nat) :=
  let chars := s.filter (fun c => !(isB64Ws c))
  let chars := if chars.length % 4 == 0 then stripB64Padding chars else chars
  if chars.length % 4 == 1 then none
  else
    match chars.mapM base64CharVal with
    | some vals => b64GroupsToBytes vals
    | none => none

/-- Strict UTF-8 decoding of a byte list, fuelled (the fuel is instantiated
with the list length, which always suffices since every step consumes at least
one byte).  `none` corresponds to `decodeURIComponent` throwing `URIError`. -/
def utf8DecodeAux : Nat → List Nat → Option (List Char)
  | _, [] => some []
  | 0, _ :: _ => none
  | fuel + 1, b :: rest =>
    if b < 0x80 then
      match utf8DecodeAux fuel rest with
      | some cs => some (Char.ofNat b :: cs)
      | none => none
    else if b < 0xC2 then none
    else if b < 0xE0 then
      match rest with
      | c1 :: rest1 =>
        if 0x80 ≤ c1 ∧ c1 ≤ 0xBF then
          match utf8DecodeAux fuel rest1 with
          | some cs => some (Char.ofNat ((b - 0xC0) * 64 + (c1 - 0x80)) :: cs)
          | none => none
        else none
      | [] => none
    else if b < 0xF0 then
      match rest with
      | c1 :: c2 :: rest2 =>
        let lo1 : Nat := if b = 0xE0 then 0xA0 else 0x80
        let hi1 : Nat := if b = 0xED then 0x9F else 0xBF
        if lo1 ≤ c1 ∧ c1 ≤ hi1 ∧ 0x80 ≤ c2 ∧ c2 ≤ 0xBF then
          match utf8DecodeAux fuel rest2 with
          | some cs =>
            some (Char.ofNat ((b - 0xE0) * 4096 + (c1 - 0x80) * 64 + (c2 - 0x80)) :: cs)
          | none => none
        else none
      | _ => none
    else if b < 0xF5 then
      match rest with
      | c1 :: c2 :: c3 :: rest3 =>
        let lo1 : Nat := if b = 0xF0 then 0x90 else 0x80
        let hi1 : Nat := if b = 0xF4 then 0x8F else 0xBF
        if lo1 ≤ c1 ∧ c1 ≤ hi1 ∧ 0x80 ≤ c2 ∧ c2 ≤ 0xBF ∧ 0x80 ≤ c3 ∧ c3 ≤ 0xBF then
          match utf8DecodeAux fuel rest3 with
          | some cs =>
            some (Char.ofNat
              ((b - 0xF0) * 262144 + (c1 - 0x80) * 4096 + (c2 - 0x80) * 64 + (c3 - 0x80)) :: cs)
          | none => none
        else none
      | _ => none
    else none

/-- Strict UTF-8 decoding of a byte list. -/
def utf8Decode (l : List Nat) : Option (List Char) :=
  utf8DecodeAux l.length l

/-! ### A small JSON parser (`JSON.parse`)

Enough of JSON for JWT claim payloads: objects, arrays, strings with the
standard escapes, integer numbers, `true`/`false`/`null`.  Number literals with
a fractional or exponent part are rejected (epoch-second claims are integers);
`\u` escapes denoting surrogates are rejected.  The recursion is fuelled; the
fuel instantiated by `jsonParse` is ample because every recursive call follows
the consumption of at least one character.
-/

inductive JsonVal where
  | jnum (n : Int)
  | jstr (s : String)
  | jbool (b : Bool)
  | jnull
  | jarr (elems : List JsonVal)
  | jobj (fields : List (String × JsonVal))
/-- JSON insignificant whitespace. -/
def jsonWs (c : Char) : Bool := c = ' ' || c = '\t' || c = '\n' || c = '\r'

def skipJsonWs : List Char → List Char
  | [] => []
  | c :: rest => if jsonWs c then skipJsonWs rest else c :: rest

def hexDigitVal (c : Char) : Option Nat :=
  if '0' ≤ c ∧ c ≤ '9' then some (c.toNat - 48)
  else if 'a' ≤ c ∧ c ≤ 'f' then some (c.toNat - 97 + 10)
  else if 'A' ≤ c ∧ c ≤ 'F' then some (c.toNat - 65 + 10)
  else none

/-- Parse the body of a JSON string after the opening quote; returns the
content and the remainder after the closing quote. -/
def jsonStringBodyAux : Nat → List Char → Option (List Char × List Char)
  | 0, _ => none
  | _ + 1, [] => none
  | fuel + 1, c :: rest =>
    if c = '"' then some ([], rest)
    else if c = '\\' then
      match rest with
      | [] => none
      | e :: rest1 =>
        let deshed : Option (Char × List Char) :=
          if e = '"' then some ('"', rest1)
          else if e = '\\' then some ('\\', rest1)
          else if e = '/' then some ('/', rest1)
          else if e = 'n' then some ('\n', rest1)
          else if e = 't' then some ('\t', rest1)
          else if e = 'r' then some ('\r', rest1)
          else if e = 'b' then some ('\x08', rest1)
          else if e = 'f' then some ('\x0c', rest1)
          else if e = 'u' then
            match rest1 with
            | h1 :: h2 :: h3 :: h4 :: rest2 =>
              match hexDigitVal h1, hexDigitVal h2, hexDigitVal h3, hexDigitVal h4 with
              | some a, some b, some c2, some d =>
                let u := ((a * 16 + b) * 16 + c2) * 16 + d
                if 0xD800 ≤ u ∧ u ≤ 0xDFFF then none else some (Char.ofNat u, rest2)
              | _, _, _, _ => none
            | _ => none
          else none
        match deshed with
        | some (ch, rem) =>
          match jsonStringBodyAux fuel rem with
          | some (cs, rest2) => some (ch :: cs, rest2)
          | none => none
        | none => none
    else if c.toNat < 0x20 then none
    else
      match jsonStringBodyAux fuel rest with
      | some (cs, rest2) => some (c :: cs, rest2)
      | none => none

def isDigitChar (c : Char) : Bool := '0' ≤ c && c ≤ '9'

def takeDigits : List Char → List Char × List Char
  | [] => ([], [])
  | c :: rest =>
    if isDigitChar c then
      let p := takeDigits rest
      (c :: p.1, p.2)
    else ([], c :: rest)

def digitsToNat (ds : List Char) : Nat :=
  ds.foldl (fun acc c => acc * 10 + (c.toNat - 48)) 0

/-- Parse a JSON integer literal (sign and digit run, no leading zeros); a
following `.`/`e`/`E` makes the literal non-integral and is rejected. -/
def jsonParseInt (l : List Char) : Option (Int × List Char) :=
  let sign : Bool × List Char := match l with
    | '-' :: rest => (true, rest)
    | _ => (false, l)
  let p := takeDigits sign.2
  match p.1 with
  | [] => none
  | d :: ds =>
    if d = '0' ∧ ds ≠ [] then none
    else
      let n : Int := digitsToNat (d :: ds)
      let v : Int := if sign.1 then -n else n
      match p.2 with
      | c :: _ => if c = '.' ∨ c = 'e' ∨ c = 'E' then none else some (v, p.2)
      | [] => some (v, [])

/-- Does `pre` literally begin `l`?  Used for the `true`/`false`/`null`
keywords. -/
def beginsWith : List Char → List Char → Bool
  | [], _ => true
  | _ :: _, [] => false
  | p :: ps, c :: cs => p = c && beginsWith ps cs

mutual

/-- Parse one JSON value. -/
def jsonValAux : Nat → List Char → Option (JsonVal × List Char)
  | 0, _ => none
  | fuel + 1, l =>
    match skipJsonWs l with
    | [] => none
    | c :: rest =>
      if c = '"' then
        match jsonStringBodyAux (rest.length + 1) rest with
        | some (cs, rest1) => some (.jstr (String.mk cs), rest1)
        | none => none
      else if c = '\x7b' then
        match skipJsonWs rest with
        | '\x7d' :: rest1 => some (.jobj [], rest1)
        | _ => match jsonMembersAux fuel rest with
          | some (fields, rest1) => some (.jobj fields, rest1)
          | none => none
      else if c = '[' then
        match skipJsonWs rest with
        | ']' :: rest1 => some (.jarr [], rest1)
        | _ => match jsonElemsAux fuel rest with
          | some (elems, rest1) => some (.jarr elems, rest1)
          | none => none
      else if beginsWith ['t', 'r', 'u', 'e'] (c :: rest) then
        some (.jbool true, rest.drop 3)
      else if beginsWith ['f', 'a', 'l', 's', 'e'] (c :: rest) then
        some (.jbool false, rest.drop 4)
      else if beginsWith ['n', 'u', 'l', 'l'] (c :: rest) then
        some (.jnull, rest.drop 3)
      else
        match jsonParseInt (c :: rest) with
        | some (n, rest1) => some (.jnum n, rest1)
        | none => none

/-- Parse the members of a JSON object after its opening brace (at least one
member present). -/
def jsonMembersAux : Nat → List Char → Option (List (String × JsonVal) × List Char)
  | 0, _ => none
  | fuel + 1, l =>
    match skipJsonWs l with
    | '"' :: rest =>
      match jsonStringBodyAux (rest.length + 1) rest with
      | some (key, rest1) =>
        match skipJsonWs rest1 with
        | ':' :: rest2 =>
          match jsonValAux fuel rest2 with
          | some (v, rest3) =>
            match skipJsonWs rest3 with
            | ',' :: rest4 =>
              match jsonMembersAux fuel rest4 with
              | some (fields, rest5) => some ((String.mk key, v) :: fields, rest5)
              | none => none
            | '\x7d' :: rest4 => some ([(String.mk key, v)], rest4)
            | _ => none
          | none => none
        | _ => none
      | none => none
    | _ => none

/-- Parse the elements of a JSON array after its opening bracket (at least one
element present). -/
def jsonElemsAux : Nat → List Char → Option (List JsonVal × List Char)
  | 0, _ => none
  | fuel + 1, l =>
    match jsonValAux fuel l with
    | some (v, rest) =>
      match skipJsonWs rest with
      | ',' :: rest1 =>
        match jsonElemsAux fuel rest1 with
        | some (elems, rest2) => some (v :: elems, rest2)
        | none => none
      | ']' :: rest1 => some ([v], rest1)
      | _ => none
    | none => none

end

/-- `JSON.parse`: parse a complete JSON text, requiring nothing but whitespace
after the value. -/
def jsonParse (s : List Char) : Option JsonVal :=
  match jsonValAux (4 * s.length + 4) s with
  | some (v, rest) => if skipJsonWs rest = [] then some v else none
  | none => none

/-- `DecodedClaims`: the decoded JWT payload, projected onto the only claim
`getValidToken` reads.  A missing or non-numeric `exp` is `none`: at the one
use site (`currentTime >= parsedToken.exp - 60`) JavaScript evaluates the
comparison against `NaN`, which is false, exactly as `none` behaves in
`nearExpiry` below. -/
structure DecodedClaims where
  exp : Option Int
deriving DecidableEq, Repr

/-- Read the `exp` member of the parsed payload object (`parsedToken.exp`);
for duplicate keys `JSON.parse` keeps the last occurrence. -/
def jsonExpClaim : JsonVal → Option Int
  | .jobj fields =>
    fields.foldl
      (fun acc kv =>
        if kv.1 = "exp" then
          match kv.2 with
          | .jnum n => some n
          | _ => none
        else acc)
      none
  | _ => none

/-- `String.prototype.split` with a one-character separator, as JavaScript
defines it: `"" → [""]`, a leading/trailing separator yields an empty
segment. -/
def splitOnChar (sep : Char) : List Char → List (List Char)
  | [] => [[]]
  | c :: rest =>
    let r := splitOnChar sep rest
    if c = sep then [] :: r
    else
      match r with
      | seg :: segs => (c :: seg) :: segs
      | [] => [[c]]

/-- The two regex replaces of `parseJwt`: every dash becomes a plus and every
underscore becomes a slash, turning the URL-safe alphabet into the standard
base64 alphabet. -/
def base64UrlToBase64 (s : List Char) : List Char :=
  s.map (fun c => if c = '-' then '+' else if c = '_' then '/' else c)

/-- `LoginApiService.parseJwt` composed with the `.exp` projection used by
`getValidToken`.  `.error` means the original code throws (and the caller's
`try` catches): a token with no second dot-segment (`split(".")[1]` is
`undefined` and `.replace` throws), an `atob` failure, a malformed UTF-8
payload (`decodeURIComponent` throws), or a `JSON.parse` failure. -/
def parseJwt (token : String) : Except Unit DecodedClaims :=
  match (splitOnChar '.' token.data)[1]? with
  | none => .error ()
  | some seg =>
    match atob (base64UrlToBase64 seg) with
    | none => .error ()
    | some bytes =>
      match utf8Decode bytes with
      | none => .error ()
      | some chars =>
        match jsonParse chars with
        | none => .error ()
        | some v => .ok ⟨jsonExpClaim v⟩

deriving instance DecidableEq for Except

example :
    parseJwt
      "eyJhbGciOiJIUzI1NiIsInR5cCI6IkpXVCJ9.eyJleHAiOjE2MDAwMDAwMDAsInN1YiI6InVzZXIxMjMifQ.signature"
      = .ok ⟨some 1600000000⟩ := by decide

example : parseJwt "not-a-jwt" = .error () := by decide

/-! ## Cache keys (`LoginApiService.createCacheKey`)

`createCacheKey(method, params)` returns `` `${method}:${JSON.stringify(params || {})}` ``.
The params objects used are `payload` (a `{email, password}` literal) and
`{ refreshToken: token.refresh }`; `JSON.stringify` serializes their fields in
insertion order with standard string escaping, reproduced here. -/

def toHexDigit (n : Nat) : Char :=
  if n < 10 then Char.ofNat (48 + n) else Char.ofNat (97 + n - 10)

/-- `JSON.stringify` escaping of one character inside a string literal. -/
def jsonEscapeChar (c : Char) : List Char :=
  if c = '"' then ['\\', '"']
  else if c = '\\' then ['\\', '\\']
  else if c = '\n' then ['\\', 'n']
  else if c = '\r' then ['\\', 'r']
  else if c = '\t' then ['\\', 't']
  else if c = '\x08' then ['\\', 'b']
  else if c = '\x0c' then ['\\', 'f']
  else if c.toNat < 0x20 then
    ['\\', 'u', '0', '0', toHexDigit (c.toNat / 16), toHexDigit (c.toNat % 16)]
  else [c]

/-- `JSON.stringify` of a string value. -/
def jsonQuote (s : String) : String :=
  String.mk ('"' :: s.data.foldr (fun c acc => jsonEscapeChar c ++ acc) ['"'])

/-- `LoginRequestData` (`src/services/login/interface.ts`): the login payload. -/
structure LoginRequestData where
  email : String
  password : String
deriving DecidableEq, Repr

/-- `LoginResponseData`: the `{access, refresh}` token pair the transport
returns on `/login/` and `/refresh/`. -/
structure LoginResponseData where
  access : String
  refresh : String
deriving DecidableEq, Repr

/-- `JSON.stringify(payload)` for the login payload. -/
def stringifyLoginParams (p : LoginRequestData) : String :=
  "\x7b\"email\":" ++ jsonQuote p.email ++ ",\"password\":" ++ jsonQuote p.password ++ "\x7d"

/-- `JSON.stringify({ refreshToken: token.refresh })`. -/
def stringifyRefreshParams (refreshToken : String) : String :=
  "\x7b\"refreshToken\":" ++ jsonQuote refreshToken ++ "\x7d"

/-- `createCacheKey(method, params)` with the params already serialized. -/
def createCacheKey (method : String) (paramsJson : String) : String :=
  method ++ ":" ++ paramsJson

def loginCacheKey (p : LoginRequestData) : String :=
  createCacheKey "login" (stringifyLoginParams p)

def refreshCacheKey (refreshToken : String) : String :=
  createCacheKey "refresh" (stringifyRefreshParams refreshToken)

/-- `Map.prototype.delete` on the association-list representation of a `Map`
(keys are unique, so removing every binding of the key coincides with deleting
the entry). -/
def mapDelete {α β : Type} [BEq α] (k : α) : List (α × β) → List (α × β)
  | [] => []
  | e :: tl => if e.1 == k then mapDelete k tl else e :: mapDelete k tl

namespace LoginApiService

/-! ## The `LoginApiService` state machine

The singleton service instance owns `requestCache : Map<string, Promise<any>>`
and reads/writes `localStorage["loginData"]`.  A promise is identified by a
`Nat`; the un-settled transport promises of `doLogin`/`doRefresh` live in
`pendingOps`, and their eventual outcomes in `settled`.  Interactions with the
external collaborators (`fetchPost`, `localStorage.setItem`/`removeItem`) are
appended to `events`, the observable trace the repository's tests assert on.

Storage is modeled at the parsed-record level: `JSON.stringify` and
`JSON.parse` of the `{access, refresh}` record are mutually inverse, and an
unparseable stored string is observably identical to an absent one (both make
`retrieveFromLocalStorage` return `null` through its `catch`), so
`Option StoredLoginData` captures every observable storage state.  The optional
fields of `StoredLoginData` represent records a field is missing from. -/

/-- A stored `loginData` record as `JSON.parse` yields it; a field is `none`
when the record does not carry it. -/
structure StoredLoginData where
  access : Option String
  refresh : Option String
deriving DecidableEq, Repr

/-- The bodies `fetchPost` is invoked with: the login payload object, or
`{ refresh: refreshToken }`. -/
inductive RequestBody where
  | loginBody (p : LoginRequestData)
  | refreshBody (refresh : String)
deriving DecidableEq, Repr

/-- One observable interaction with an external collaborator. -/
inductive SvcEvent where
  | fetchPost (path : String) (body : RequestBody)
  | setItem (key : String) (value : LoginResponseData)
  | removeItem (key : String)
deriving DecidableEq, Repr

/-- What a pending transport promise will do when it settles: `loginOp` runs
`doLogin`'s continuation and then the `finally` of `login` that deletes
`cacheKey`; `refreshOp` runs `doRefresh`'s continuation (which never deletes
its cache entry). -/
inductive PendingOp where
  | loginOp (cacheKey : String)
  | refreshOp (cacheKey : String)
deriving DecidableEq, Repr

/-- The settled value of a cached promise: fulfilled with a credential,
fulfilled with `null` (the refresh-failure result), or rejected. -/
inductive SettledResult where
  | ok (d : LoginResponseData)
  | okNull
  | err
deriving DecidableEq, Repr

structure SvcState where
  requestCache : List (String × Nat)
  storage : Option StoredLoginData
  nextPid : Nat
  pendingOps : List (Nat × PendingOp)
  settled : List (Nat × SettledResult)
  events : List SvcEvent
deriving DecidableEq, Repr

/-- A fresh singleton instance next to empty storage. -/
def initState : SvcState :=
  { requestCache := [], storage := none, nextPid := 0, pendingOps := [], settled := [],
    events := [] }


/-- `storeInLocalStorage`: `localStorage.setItem("loginData", JSON.stringify(payload))`. -/
def storeInLocalStorage (d : LoginResponseData) (s : SvcState) : SvcState :=
  { s with storage := some { access := some d.access, refresh := some d.refresh },
           events := s.events ++ [.setItem "loginData" d] }

/-- `removeFromLocalStorage`: `localStorage.removeItem("loginData")`. -/
def removeFromLocalStorage (s : SvcState) : SvcState :=
  { s with storage := none, events := s.events ++ [.removeItem "loginData"] }

/-- `logout()`: a single synchronous step. -/
def logout (s : SvcState) : SvcState :=
  removeFromLocalStorage s

/-- `retrieveFromLocalStorage`: reads and parses the stored record; absence and
parse failure both surface as `null` through the `catch`. -/
def retrieveFromLocalStorage (s : SvcState) : Option StoredLoginData :=
  s.storage

/-- `getCurrentToken()` resolves with the stored record or `null`. -/
def getCurrentToken (s : SvcState) : Option StoredLoginData :=
  retrieveFromLocalStorage s

/-- The synchronous segment of `login(payload)` up to the point where the
caller holds the promise it will await: on a cache hit the stored promise is
returned with no other effect; on a miss, `doLogin(payload)` is invoked — which
synchronously issues `fetchPost("/login/", {method: "POST"}, payload)` — and its
promise is stored under the key and returned. -/
def login (p : LoginRequestData) (s : SvcState) : SvcState × Nat :=
  let cacheKey := loginCacheKey p
  match s.requestCache.lookup cacheKey with
  | some pid => (s, pid)
  | none =>
    let pid := s.nextPid
    ({ s with
        events := s.events ++ [.fetchPost "/login/" (.loginBody p)],
        pendingOps := s.pendingOps ++ [(pid, .loginOp cacheKey)],
        requestCache := s.requestCache ++ [(cacheKey, pid)],
        nextPid := pid + 1 }, pid)

/-- Transport settlement: the mocked `fetchPost` either resolves with a
credential or rejects. -/
inductive TransportOutcome where
  | success (d : LoginResponseData)
  | failure
deriving DecidableEq, Repr

/-- Continuation of `doLogin` when its `fetchPost` settles, composed with the
`finally` of the `login` call that created the promise: on success the response
is persisted and the promise fulfills with it; on rejection nothing is
persisted and the promise rejects; either way the `finally` deletes the cache
entry. -/
def doLoginSettle (cacheKey : String) (pid : Nat) (out : TransportOutcome)
    (s : SvcState) : SvcState :=
  match out with
  | .success d =>
    let s1 := storeInLocalStorage d s
    { s1 with settled := s1.settled ++ [(pid, .ok d)],
              pendingOps := mapDelete pid s1.pendingOps,
              requestCache := mapDelete cacheKey s1.requestCache }
  | .failure =>
    { s with settled := s.settled ++ [(pid, .err)],
             pendingOps := mapDelete pid s.pendingOps,
             requestCache := mapDelete cacheKey s.requestCache }

/-- Continuation of `doRefresh` when its `fetchPost` settles: on success the
response is persisted and the promise fulfills with it; on rejection the
`catch` runs `logout()` and the promise fulfills with `null`.  No code path
deletes the cache entry (the source comments this choice: the entry is
deliberately left for "natural cache invalidation"). -/
def doRefreshSettle (pid : Nat) (out : TransportOutcome) (s : SvcState) : SvcState :=
  match out with
  | .success d =>
    let s1 := storeInLocalStorage d s
    { s1 with settled := s1.settled ++ [(pid, .ok d)],
              pendingOps := mapDelete pid s1.pendingOps }
  | .failure =>
    let s1 := logout s
    { s1 with settled := s1.settled ++ [(pid, .okNull)],
              pendingOps := mapDelete pid s1.pendingOps }

/-- Settlement dispatch: the pending transport promise `pid` settles with
`out`. -/
def settle (pid : Nat) (out : TransportOutcome) (s : SvcState) : SvcState :=
  match s.pendingOps.lookup pid with
  | none => s
  | some (.loginOp cacheKey) => doLoginSettle cacheKey pid out s
  | some (.refreshOp _) => doRefreshSettle pid out s

/-- JavaScript falsiness of an optional string field: missing or empty. -/
def jsFalsy : Option String → Bool
  | none => true
  | some s => s == ""

/-- `currentTime >= parsedToken.exp - ONE_MINUTE_IN_SECONDS`.  When the `exp`
claim is absent the subtraction is `NaN` and the comparison is false. -/
def nearExpiry (now : Int) : Option Int → Bool
  | none => false
  | some e => now ≥ e - 60

/-- What a `getValidToken()` call hands its caller: an immediately resolved
value (`null` or the stored record), or the cached/created refresh promise it
awaits. -/
inductive GVTResult where
  | value (v : Option StoredLoginData)
  | awaitPid (pid : Nat)
deriving DecidableEq, Repr

/-- `getValidToken()`.  The method's only internal await is
`await this.getCurrentToken()`, whose body is a synchronous storage read and
which mutates nothing, so the call is modeled as one step from the read to the
point where the caller holds its result or the refresh promise.

Paths, in source order: a missing record or a falsy `access`/`refresh` field
runs `logout()` and resolves `null`; a `parseJwt` throw is caught, runs
`logout()` and resolves `null`; a near-expiry token returns the cached refresh
promise if one is stored, otherwise invokes `doRefresh(token.refresh)` — which
synchronously issues `fetchPost("/refresh/", ...)` — stores its promise under
the refresh cache key and returns it; a fresh token is returned unchanged. -/
def getValidToken (now : Int) (s : SvcState) : SvcState × GVTResult :=
  match getCurrentToken s with
  | none => (logout s, .value none)
  | some tok =>
    if jsFalsy tok.access || jsFalsy tok.refresh then (logout s, .value none)
    else
      match tok.access, tok.refresh with
      | some a, some r =>
        match parseJwt a with
        | .error _ => (logout s, .value none)
        | .ok claims =>
          if nearExpiry now claims.exp then
            let cacheKey := refreshCacheKey r
            match s.requestCache.lookup cacheKey with
            | some pid => (s, .awaitPid pid)
            | none =>
              let pid := s.nextPid
              ({ s with
                  events := s.events ++ [.fetchPost "/refresh/" (.refreshBody r)],
                  pendingOps := s.pendingOps ++ [(pid, .refreshOp cacheKey)],
                  requestCache := s.requestCache ++ [(cacheKey, pid)],
                  nextPid := pid + 1 }, .awaitPid pid)
          else (s, .value (some tok))
      | _, _ => (logout s, .value none)

end LoginApiService

namespace BrandProfileApiService

/-! ## The `BrandProfileApiService` state machine
(`src/services/brandProfile/api.ts`)

The service keeps one private promise field per list method
(`getAllPromise`, `getByUserPromise`) and a keyed map for `getById`; reads go
through the inherited `get(uri)` transport, recorded in `getCalls`. -/

structure BPState where
  getAllPromise : Option Nat
  getByUserPromise : Option Nat
  getByIdPromises : List (String × Nat)
  nextPid : Nat
  getCalls : List String
deriving DecidableEq, Repr

def initState : BPState :=
  { getAllPromise := none, getByUserPromise := none, getByIdPromises := [], nextPid := 0,
    getCalls := [] }

/-- `doGetAll(query)`: the query parameter is accepted and ignored; the uri is
always `"/brands/"`. -/
def doGetAllUri (_query : Option String) : String := "/brands/"

/-- `doGetByUser(query)`: `` query ? `/brands/?query=${query}` : "/brands/" ``
(an absent or empty query is falsy). -/
def doGetByUserUri : Option String → String
  | some q => if q == "" then "/brands/" else "/brands/?query=" ++ q
  | none => "/brands/"

/-- Synchronous segment of `getAll(query)`: return the stored promise if one is
in flight, otherwise invoke `doGetAll(query)` — issuing `get("/brands/")` — and
store its promise in the single `getAllPromise` field. -/
def getAll (query : Option String) (s : BPState) : BPState × Nat :=
  match s.getAllPromise with
  | some pid => (s, pid)
  | none =>
    let pid := s.nextPid
    ({ s with getAllPromise := some pid, nextPid := pid + 1,
              getCalls := s.getCalls ++ [doGetAllUri query] }, pid)

/-- Synchronous segment of `getByUser(query)`: return the stored promise if one
is in flight — whatever query it was created for — otherwise invoke
`doGetByUser(query)` and store its promise in the single `getByUserPromise`
field. -/
def getByUser (query : Option String) (s : BPState) : BPState × Nat :=
  match s.getByUserPromise with
  | some pid => (s, pid)
  | none =>
    let pid := s.nextPid
    ({ s with getByUserPromise := some pid, nextPid := pid + 1,
              getCalls := s.getCalls ++ [doGetByUserUri query] }, pid)

/-- The `finally` of the `getAll` call that created the promise: clear the
field once the underlying `get` settles (success or failure). -/
def settleGetAll (s : BPState) : BPState :=
  { s with getAllPromise := none }

/-- The `finally` of the `getByUser` call that created the promise. -/
def settleGetByUser (s : BPState) : BPState :=
  { s with getByUserPromise := none }

/-- `n` concurrent `getAll` calls, one per query in the list, all issued before
the underlying request settles: in the single-threaded event loop their
synchronous segments run one after the other. -/
def getAllSeq : List (Option String) → BPState → BPState × List Nat
  | [], s => (s, [])
  | q :: qs, s =>
    let r1 := getAll q s
    let r2 := getAllSeq qs r1.1
    (r2.1, r1.2 :: r2.2)

end BrandProfileApiService

namespace UserProfileApiService

/-! ## The `UserProfileApiService` state machine
(`src/services/userProfile/api.ts`)

The singleton keeps `requestCache : Map<string, Promise<any>>`; `getMyUser`
uses the constant key `"getMyUser"` and — like the refresh path of
`LoginApiService.getValidToken` — never removes the entry once the promise
settles ("Don't auto-cleanup"). -/

structure UPState where
  requestCache : List (String × Nat)
  nextPid : Nat
  getCalls : List String
  settled : List Nat
deriving DecidableEq, Repr

def initState : UPState :=
  { requestCache := [], nextPid := 0, getCalls := [], settled := [] }

/-- Synchronous segment of `getMyUser()`: return the cached promise when the
key is present, otherwise invoke `doGetMyUser()` — issuing `get("/users/me/")` —
and cache its promise under `"getMyUser"`. -/
def getMyUser (s : UPState) : UPState × Nat :=
  match s.requestCache.lookup "getMyUser" with
  | some pid => (s, pid)
  | none =>
    let pid := s.nextPid
    ({ s with requestCache := s.requestCache ++ [("getMyUser", pid)],
              nextPid := pid + 1,
              getCalls := s.getCalls ++ ["/users/me/"] }, pid)

/-- Settlement of the `doGetMyUser` promise: no continuation in `getMyUser`
touches `requestCache` (the method returns the promise directly, with no
`finally`). -/
def settleGetMyUser (pid : Nat) (s : UPState) : UPState :=
  { s with settled := s.settled ++ [pid] }

end UserProfileApiService

namespace LoginApiService

/-- `n` concurrent `login(p)` calls issued before the transport settles: their
synchronous segments run one after the other in the event loop. -/
def loginSeq (p : LoginRequestData) : Nat → SvcState → SvcState × List Nat
  | 0, s => (s, [])
  | n + 1, s =>
    let r1 := login p s
    let r2 := loginSeq p n r1.1
    (r2.1, r1.2 :: r2.2)

/-- `n` concurrent `getValidToken()` calls issued before the refresh transport
settles. -/
def getValidTokenSeq (now : Int) : Nat → SvcState → SvcState × List GVTResult
  | 0, s => (s, [])
  | n + 1, s =>
    let r1 := getValidToken now s
    let r2 := getValidTokenSeq now n r1.1
    (r2.1, r1.2 :: r2.2)

end LoginApiService

/-! ## Association-list facts used throughout -/

theorem lookup_cons {α β : Type} [BEq α] (a k : α) (v : β) (tl : List (α × β)) :
    List.lookup a ((k, v) :: tl) = bif a == k then some v else List.lookup a tl := by
  cases h : a == k <;> simp [List.lookup, h]

theorem lookup_append_of_none {α β : Type} [BEq α] {l1 : List (α × β)} (l2 : List (α × β))
    (a : α) (h : List.lookup a l1 = none) :
    List.lookup a (l1 ++ l2) = List.lookup a l2 := by
  induction l1 with
  | nil => rfl
  | cons hd tl ih =>
    obtain ⟨k, v⟩ := hd
    rw [lookup_cons] at h
    rw [List.cons_append, lookup_cons]
    cases hk : a == k
    · rw [hk] at h
      simp only [cond_false] at h ⊢
      exact ih h
    · rw [hk] at h
      simp at h

theorem lookup_append_self {α β : Type} [BEq α] [LawfulBEq α] {l : List (α × β)} (a : α)
    (v : β) (h : List.lookup a l = none) :
    List.lookup a (l ++ [(a, v)]) = some v := by
  rw [lookup_append_of_none _ a h, lookup_cons]
  simp

theorem lookup_mapDelete_self {α β : Type} [BEq α] [LawfulBEq α] (k : α)
    (l : List (α × β)) : List.lookup k (mapDelete k l) = none := by
  induction l with
  | nil => rfl
  | cons hd tl ih =>
    obtain ⟨k2, v⟩ := hd
    rw [mapDelete]
    by_cases hk : k2 = k
    · rw [if_pos (by simpa using hk)]
      exact ih
    · rw [if_neg (by simpa using hk), lookup_cons]
      have hkk : (k == k2) = false := by
        simpa using fun h => hk h.symm
      rw [hkk]
      simpa using ih

/-! ## Concrete fixtures

The two access tokens are the JWTs of `src/services/login/api.test.ts`; the
tests freeze `Date.now()` at `1650000000000` ms, i.e. `1650000000` epoch
seconds. -/

/-- Access token whose payload decodes to `\x7b"exp":1600000000,"sub":"user123"\x7d`. -/
def expiredAccessToken : String :=
  "eyJhbGciOiJIUzI1NiIsInR5cCI6IkpXVCJ9.eyJleHAiOjE2MDAwMDAwMDAsInN1YiI6InVzZXIxMjMifQ.signature"

/-- Access token whose payload decodes to `\x7b"exp":1700000000,"sub":"user123"\x7d`. -/
def freshAccessToken : String :=
  "eyJhbGciOiJIUzI1NiIsInR5cCI6IkpXVCJ9.eyJleHAiOjE3MDAwMDAwMDAsInN1YiI6InVzZXIxMjMifQ.signature"

namespace LoginApiService

/-! ## Operational lemmas for `LoginApiService` -/

theorem login_hit (p : LoginRequestData) (s : SvcState) (pid : Nat)
    (h : s.requestCache.lookup (loginCacheKey p) = some pid) :
    login p s = (s, pid) := by
  simp [login, h]

theorem loginSeq_hit (p : LoginRequestData) (n : Nat) (s : SvcState) (pid : Nat)
    (h : s.requestCache.lookup (loginCacheKey p) = some pid) :
    loginSeq p n s = (s, List.replicate n pid) := by
  induction n with
  | zero => simp [loginSeq]
  | succ n ih => simp [loginSeq, login_hit p s pid h, ih, List.replicate_succ]

theorem login_miss (p : LoginRequestData) (s : SvcState)
    (h : s.requestCache.lookup (loginCacheKey p) = none) :
    login p s =
      ({ s with
          events := s.events ++ [.fetchPost "/login/" (.loginBody p)],
          pendingOps := s.pendingOps ++ [(s.nextPid, .loginOp (loginCacheKey p))],
          requestCache := s.requestCache ++ [(loginCacheKey p, s.nextPid)],
          nextPid := s.nextPid + 1 }, s.nextPid) := by
  simp [login, h]

theorem settle_loginOp (pid : Nat) (out : TransportOutcome) (s : SvcState) (k : String)
    (h : s.pendingOps.lookup pid = some (.loginOp k)) :
    settle pid out s = doLoginSettle k pid out s := by
  simp [settle, h]

theorem settle_refreshOp (pid : Nat) (out : TransportOutcome) (s : SvcState) (k : String)
    (h : s.pendingOps.lookup pid = some (.refreshOp k)) :
    settle pid out s = doRefreshSettle pid out s := by
  simp [settle, h]

theorem getValidToken_refresh_hit (now : Int) (s : SvcState) (a r : String)
    (c : DecodedClaims) (pid : Nat)
    (hstore : s.storage = some ⟨some a, some r⟩)
    (ha : a ≠ "") (hr : r ≠ "")
    (hjwt : parseJwt a = .ok c)
    (hexp : nearExpiry now c.exp = true)
    (hhit : s.requestCache.lookup (refreshCacheKey r) = some pid) :
    getValidToken now s = (s, .awaitPid pid) := by
  simp [getValidToken, getCurrentToken, retrieveFromLocalStorage, hstore, jsFalsy, ha, hr,
    hjwt, hexp, hhit]

theorem getValidTokenSeq_refresh_hit (now : Int) (n : Nat) (s : SvcState) (a r : String)
    (c : DecodedClaims) (pid : Nat)
    (hstore : s.storage = some ⟨some a, some r⟩)
    (ha : a ≠ "") (hr : r ≠ "")
    (hjwt : parseJwt a = .ok c)
    (hexp : nearExpiry now c.exp = true)
    (hhit : s.requestCache.lookup (refreshCacheKey r) = some pid) :
    getValidTokenSeq now n s = (s, List.replicate n (.awaitPid pid)) := by
  induction n with
  | zero => simp [getValidTokenSeq]
  | succ n ih =>
    simp [getValidTokenSeq,
      getValidToken_refresh_hit now s a r c pid hstore ha hr hjwt hexp hhit, ih,
      List.replicate_succ]

theorem getValidToken_refresh_miss (now : Int) (s : SvcState) (a r : String)
    (c : DecodedClaims)
    (hstore : s.storage = some ⟨some a, some r⟩)
    (ha : a ≠ "") (hr : r ≠ "")
    (hjwt : parseJwt a = .ok c)
    (hexp : nearExpiry now c.exp = true)
    (hmiss : s.requestCache.lookup (refreshCacheKey r) = none) :
    getValidToken now s =
      ({ s with
          events := s.events ++ [.fetchPost "/refresh/" (.refreshBody r)],
          pendingOps := s.pendingOps ++ [(s.nextPid, .refreshOp (refreshCacheKey r))],
          requestCache := s.requestCache ++ [(refreshCacheKey r, s.nextPid)],
          nextPid := s.nextPid + 1 }, .awaitPid s.nextPid) := by
  simp [getValidToken, getCurrentToken, retrieveFromLocalStorage, hstore, jsFalsy, ha, hr,
    hjwt, hexp, hmiss]

end LoginApiService

open LoginApiService UserProfileApiService BrandProfileApiService

/-- A fresh singleton whose storage holds the expired-token credential the
repository's refresh test installs. -/
def refreshDemoState : SvcState :=
  { LoginApiService.initState with storage := some ⟨some expiredAccessToken, some "refresh-token"⟩ }

/-- A fresh singleton whose storage holds the fresh-token credential of the
repository's short-circuit test. -/
def freshDemoState : SvcState :=
  { LoginApiService.initState with
      storage := some ⟨some freshAccessToken, some "refresh-token"⟩ }

/-- A state whose stored access token has no claims segment at all. -/
def malformedDemoState : SvcState :=
  { LoginApiService.initState with
      storage := some ⟨some "notajwt", some "refresh-token"⟩ }

/-- A state whose stored record carries an access token but no refresh
token. -/
def missingRefreshDemoState : SvcState :=
  { LoginApiService.initState with storage := some ⟨some "a", none⟩ }

/-- A state with a pending login transport promise under its cache key. -/
def loginPendingDemo : SvcState :=
  { LoginApiService.initState with
      requestCache := [("login:k", 0)],
      pendingOps := [(0, .loginOp "login:k")],
      nextPid := 1 }

/-- A state with a pending refresh transport promise under its cache key. -/
def refreshPendingDemo : SvcState :=
  { LoginApiService.initState with
      requestCache := [("refresh:k", 0)],
      pendingOps := [(0, .refreshOp "refresh:k")],
      nextPid := 1 }

/-- **C1, counterexample.**  The claim says every registry entry — login,
refresh, `getMyUser` — is removed once its promise settles.  Concretely: from a
fresh singleton holding the expired credential, one `getValidToken()` call
registers the refresh promise (pid 0) under `refresh:\x7b"refreshToken":"refresh-token"\x7d`;
after that promise settles successfully, the registry still holds the entry —
it is never removed. -/
theorem refresh_entry_retained_after_settlement :
    ((settle 0 (.success ⟨"a2", "r2"⟩)
        (getValidToken 1650000000 refreshDemoState).1).requestCache).lookup
      (refreshCacheKey "refresh-token") = some 0 := by decide

/-- **C1, amended.**  Settlement cleanup is per-operation: a settled login
promise's registry entry is removed (success or failure), but the entries of
the refresh operation inside `getValidToken` and of `getMyUser` survive
settlement unchanged — the registry retains those settled entries. -/
theorem registry_cleanup_per_operation :
    (∀ (k : String) (pid : Nat) (out : TransportOutcome) (s : SvcState),
        s.pendingOps.lookup pid = some (.loginOp k) →
        (settle pid out s).requestCache.lookup k = none) ∧
    (∀ (k : String) (pid : Nat) (out : TransportOutcome) (s : SvcState),
        s.pendingOps.lookup pid = some (.refreshOp k) →
        (settle pid out s).requestCache = s.requestCache) ∧
    (∀ (pid : Nat) (s : UPState),
        (settleGetMyUser pid s).requestCache = s.requestCache) := by
  refine ⟨?_, ?_, ?_⟩
  · intro k pid out s h
    rw [settle_loginOp pid out s k h]
    cases out <;>
      simp [doLoginSettle, storeInLocalStorage, lookup_mapDelete_self]
  · intro k pid out s h
    rw [settle_refreshOp pid out s k h]
    cases out <;>
      simp [doRefreshSettle, storeInLocalStorage, logout, removeFromLocalStorage]
  · intro pid s
    rfl

/-- Witness for `registry_cleanup_per_operation` at concrete states with a
pending login (resp. refresh) promise. -/
theorem registry_cleanup_per_operation_witness :
    (settle 0 .failure loginPendingDemo).requestCache.lookup "login:k" = none ∧
    (settle 0 .failure refreshPendingDemo).requestCache = refreshPendingDemo.requestCache :=
  ⟨registry_cleanup_per_operation.1 "login:k" 0 .failure loginPendingDemo (by decide),
   registry_cleanup_per_operation.2.1 "refresh:k" 0 .failure refreshPendingDemo (by decide)⟩

/-- The state reached by the first of a burst of concurrent `login` calls,
together with the shared promise id every call in the burst receives. -/
theorem loginSeq_fresh (p : LoginRequestData) (s0 : SvcState) (n : Nat)
    (hc : s0.requestCache.lookup (loginCacheKey p) = none) :
    loginSeq p (n + 1) s0 =
      ({ s0 with
          events := s0.events ++ [.fetchPost "/login/" (.loginBody p)],
          pendingOps := s0.pendingOps ++ [(s0.nextPid, .loginOp (loginCacheKey p))],
          requestCache := s0.requestCache ++ [(loginCacheKey p, s0.nextPid)],
          nextPid := s0.nextPid + 1 }, List.replicate (n + 1) s0.nextPid) := by
  have hmiss := login_miss p s0 hc
  have hhit : (login p s0).1.requestCache.lookup (loginCacheKey p) = some s0.nextPid := by
    rw [hmiss]
    exact lookup_append_self (loginCacheKey p) s0.nextPid hc
  have hrest := loginSeq_hit p n (login p s0).1 s0.nextPid hhit
  rw [hmiss] at hrest
  simp only [loginSeq]
  rw [hmiss]
  simp [hrest, List.replicate_succ]

/-- **C2.**  For a burst of `n + 1` concurrent `login(p)` calls issued before
the transport settles (from any state with no in-flight entry for the key):
every call receives the same promise, the transport is invoked exactly once
with exactly the payload body, and on settlement all callers observe the one
shared outcome — on success `setItem` persists the response exactly once, on
rejection nothing is persisted and the shared promise rejects. -/
theorem concurrent_login_single_transport (p : LoginRequestData) (d : LoginResponseData)
    (s0 : SvcState) (n : Nat)
    (hc : s0.requestCache.lookup (loginCacheKey p) = none)
    (hp : s0.pendingOps.lookup s0.nextPid = none)
    (hs : s0.settled.lookup s0.nextPid = none) :
    (loginSeq p (n + 1) s0).2 = List.replicate (n + 1) s0.nextPid ∧
    (loginSeq p (n + 1) s0).1.events =
      s0.events ++ [.fetchPost "/login/" (.loginBody p)] ∧
    (settle s0.nextPid (.success d) (loginSeq p (n + 1) s0).1).events =
      s0.events ++ [.fetchPost "/login/" (.loginBody p), .setItem "loginData" d] ∧
    (settle s0.nextPid (.success d) (loginSeq p (n + 1) s0).1).storage =
      some ⟨some d.access, some d.refresh⟩ ∧
    (settle s0.nextPid (.success d) (loginSeq p (n + 1) s0).1).settled.lookup s0.nextPid =
      some (.ok d) ∧
    (settle s0.nextPid .failure (loginSeq p (n + 1) s0).1).events =
      s0.events ++ [.fetchPost "/login/" (.loginBody p)] ∧
    (settle s0.nextPid .failure (loginSeq p (n + 1) s0).1).settled.lookup s0.nextPid =
      some .err := by
  have hseq := loginSeq_fresh p s0 n hc
  have hpend : List.lookup s0.nextPid
      (s0.pendingOps ++ [(s0.nextPid, PendingOp.loginOp (loginCacheKey p))])
      = some (.loginOp (loginCacheKey p)) := lookup_append_self s0.nextPid _ hp
  have hset : ∀ res : SettledResult,
      List.lookup s0.nextPid (s0.settled ++ [(s0.nextPid, res)]) = some res :=
    fun res => lookup_append_self s0.nextPid res hs
  refine ⟨?_, ?_, ?_, ?_, ?_, ?_, ?_⟩ <;>
    simp [hseq, settle, hpend, doLoginSettle, storeInLocalStorage, hset]

/-- Witness for `concurrent_login_single_transport`: three concurrent
double-click logins from a fresh singleton. -/
theorem concurrent_login_single_transport_witness :
    (loginSeq ⟨"a@x.com", "p"⟩ 3 LoginApiService.initState).2 = List.replicate 3 0 ∧
    (settle 0 (.success ⟨"access-token", "refresh-token"⟩)
        (loginSeq ⟨"a@x.com", "p"⟩ 3 LoginApiService.initState).1).events =
      [] ++ [.fetchPost "/login/" (.loginBody ⟨"a@x.com", "p"⟩),
        .setItem "loginData" ⟨"access-token", "refresh-token"⟩] :=
  ⟨(concurrent_login_single_transport ⟨"a@x.com", "p"⟩ ⟨"access-token", "refresh-token"⟩
      LoginApiService.initState 2 rfl rfl rfl).1,
   (concurrent_login_single_transport ⟨"a@x.com", "p"⟩ ⟨"access-token", "refresh-token"⟩
      LoginApiService.initState 2 rfl rfl rfl).2.2.1⟩

/-- The state reached by the first of a burst of concurrent `getValidToken`
calls over a near-expiry credential, together with the shared refresh
promise. -/
theorem getValidTokenSeq_fresh (now : Int) (s0 : SvcState) (a r : String)
    (c : DecodedClaims) (n : Nat)
    (hstore : s0.storage = some ⟨some a, some r⟩)
    (ha : a ≠ "") (hr : r ≠ "")
    (hjwt : parseJwt a = .ok c)
    (hexp : nearExpiry now c.exp = true)
    (hc : s0.requestCache.lookup (refreshCacheKey r) = none) :
    getValidTokenSeq now (n + 1) s0 =
      ({ s0 with
          events := s0.events ++ [.fetchPost "/refresh/" (.refreshBody r)],
          pendingOps := s0.pendingOps ++ [(s0.nextPid, .refreshOp (refreshCacheKey r))],
          requestCache := s0.requestCache ++ [(refreshCacheKey r, s0.nextPid)],
          nextPid := s0.nextPid + 1 },
        List.replicate (n + 1) (.awaitPid s0.nextPid)) := by
  have hmiss := getValidToken_refresh_miss now s0 a r c hstore ha hr hjwt hexp hc
  have hhit : (getValidToken now s0).1.requestCache.lookup (refreshCacheKey r)
      = some s0.nextPid := by
    rw [hmiss]
    exact lookup_append_self (refreshCacheKey r) s0.nextPid hc
  have hstore1 : (getValidToken now s0).1.storage = some ⟨some a, some r⟩ := by
    rw [hmiss]
    exact hstore
  have hrest := getValidTokenSeq_refresh_hit now n (getValidToken now s0).1 a r c
    s0.nextPid hstore1 ha hr hjwt hexp hhit
  rw [hmiss] at hrest
  simp only [getValidTokenSeq]
  rw [hmiss]
  simp [hrest, List.replicate_succ]

/-- **C3.**  Given a persisted credential whose access token is within the
60-second guard window (or expired) and `n + 1` concurrent `getValidToken()`
calls with no refresh already in flight for that refresh token: every call
receives the same refresh promise, exactly one `POST /refresh/` transport call
occurs (with the stored refresh token as body), and when it succeeds all
callers observe the same new credential, which is persisted. -/
theorem concurrent_refresh_single_transport (now : Int) (a r : String) (e : Int)
    (d : LoginResponseData) (s0 : SvcState) (n : Nat)
    (hstore : s0.storage = some ⟨some a, some r⟩)
    (ha : a ≠ "") (hr : r ≠ "")
    (hjwt : parseJwt a = .ok ⟨some e⟩)
    (hexp : now ≥ e - 60)
    (hc : s0.requestCache.lookup (refreshCacheKey r) = none)
    (hp : s0.pendingOps.lookup s0.nextPid = none)
    (hs : s0.settled.lookup s0.nextPid = none) :
    (getValidTokenSeq now (n + 1) s0).2 =
      List.replicate (n + 1) (.awaitPid s0.nextPid) ∧
    (getValidTokenSeq now (n + 1) s0).1.events =
      s0.events ++ [.fetchPost "/refresh/" (.refreshBody r)] ∧
    (settle s0.nextPid (.success d) (getValidTokenSeq now (n + 1) s0).1).settled.lookup
        s0.nextPid = some (.ok d) ∧
    (settle s0.nextPid (.success d) (getValidTokenSeq now (n + 1) s0).1).storage =
      some ⟨some d.access, some d.refresh⟩ := by
  have hexp' : nearExpiry now (DecodedClaims.mk (some e)).exp = true := by
    simp [nearExpiry]
    omega
  have hseq := getValidTokenSeq_fresh now s0 a r ⟨some e⟩ n hstore ha hr hjwt hexp' hc
  have hpend : List.lookup s0.nextPid
      (s0.pendingOps ++ [(s0.nextPid, PendingOp.refreshOp (refreshCacheKey r))])
      = some (.refreshOp (refreshCacheKey r)) := lookup_append_self s0.nextPid _ hp
  have hset : List.lookup s0.nextPid (s0.settled ++ [(s0.nextPid, SettledResult.ok d)])
      = some (.ok d) := lookup_append_self s0.nextPid _ hs
  refine ⟨?_, ?_, ?_, ?_⟩ <;>
    simp [hseq, settle, hpend, doRefreshSettle, storeInLocalStorage, hset]

/-- Witness for `concurrent_refresh_single_transport`: four concurrent
`getValidToken()` calls over the expired test credential at the frozen test
clock. -/
theorem concurrent_refresh_single_transport_witness :
    (getValidTokenSeq 1650000000 4 refreshDemoState).2 =
      List.replicate 4 (.awaitPid 0) ∧
    (settle 0 (.success ⟨"a2", "r2"⟩)
        (getValidTokenSeq 1650000000 4 refreshDemoState).1).storage =
      some ⟨some "a2", some "r2"⟩ :=
  ⟨(concurrent_refresh_single_transport 1650000000 expiredAccessToken "refresh-token"
      1600000000 ⟨"a2", "r2"⟩ refreshDemoState 3 rfl (by decide) (by decide) (by decide)
      (by decide) rfl rfl rfl).1,
   (concurrent_refresh_single_transport 1650000000 expiredAccessToken "refresh-token"
      1600000000 ⟨"a2", "r2"⟩ refreshDemoState 3 rfl (by decide) (by decide) (by decide)
      (by decide) rfl rfl rfl).2.2.2⟩

/-- **C5.**  Valid-token short-circuit: when the stored credential's access
token carries an `exp` claim more than 60 seconds after the current time,
`getValidToken()` leaves the whole service state untouched — in particular it
makes no transport call and no storage write — and resolves with the stored
credential unchanged. -/
theorem valid_token_short_circuit (now : Int) (s : SvcState) (a r : String) (e : Int)
    (hstore : getCurrentToken s = some ⟨some a, some r⟩)
    (ha : a ≠ "") (hr : r ≠ "")
    (hjwt : parseJwt a = .ok ⟨some e⟩)
    (hexp : now < e - 60) :
    getValidToken now s = (s, .value (some ⟨some a, some r⟩)) := by
  have hexp' : nearExpiry now (DecodedClaims.mk (some e)).exp = false := by
    simp [nearExpiry]
    omega
  rw [getCurrentToken, retrieveFromLocalStorage] at hstore
  simp [getValidToken, getCurrentToken, retrieveFromLocalStorage, hstore, jsFalsy, ha, hr,
    hjwt, hexp']

/-- Witness for `valid_token_short_circuit`: the repository's fresh test token
(expiring 1700000000) at the frozen test clock 1650000000. -/
theorem valid_token_short_circuit_witness :
    getValidToken 1650000000 freshDemoState =
      (freshDemoState, .value (some ⟨some freshAccessToken, some "refresh-token"⟩)) :=
  valid_token_short_circuit 1650000000 freshDemoState freshAccessToken "refresh-token"
    1700000000 rfl (by decide) (by decide) (by decide) (by decide)

/-- **C6.**  `getValidToken` never surfaces a decoding or transport error.
First conjunct: when decoding the access token's claims segment throws
(`parseJwt` errors), the call performs the logout side effect and resolves
`null`.  Second conjunct: when the pending refresh transport promise settles,
the shared refresh promise never rejects — transport failure runs the logout
side effect (clearing storage) and fulfills the promise with `null`, and
transport success fulfills it with the new credential. -/
theorem getValidToken_error_containment :
    (∀ (now : Int) (s : SvcState) (a r : String),
        getCurrentToken s = some ⟨some a, some r⟩ → a ≠ "" → r ≠ "" →
        parseJwt a = .error () →
        getValidToken now s = (logout s, .value none) ∧ (logout s).storage = none) ∧
    (∀ (s : SvcState) (pid : Nat) (k : String),
        s.pendingOps.lookup pid = some (.refreshOp k) →
        s.settled.lookup pid = none →
        (settle pid .failure s).storage = none ∧
        (settle pid .failure s).settled.lookup pid = some .okNull ∧
        ∀ d, (settle pid (.success d) s).settled.lookup pid = some (.ok d)) := by
  constructor
  · intro now s a r hstore ha hr hjwt
    rw [getCurrentToken, retrieveFromLocalStorage] at hstore
    constructor
    · simp [getValidToken, getCurrentToken, retrieveFromLocalStorage, hstore, jsFalsy,
        ha, hr, hjwt]
    · simp [logout, removeFromLocalStorage]
  · intro s pid k hpend hs
    refine ⟨?_, ?_, ?_⟩
    · simp [settle, hpend, doRefreshSettle, logout, removeFromLocalStorage]
    · simp [settle, hpend, doRefreshSettle, logout, removeFromLocalStorage,
        lookup_append_self pid _ hs]
    · intro d
      simp [settle, hpend, doRefreshSettle, storeInLocalStorage,
        lookup_append_self pid _ hs]

/-- Witness for `getValidToken_error_containment`: a stored record whose access
token has no dot-separated claims segment, and a failing refresh settlement. -/
theorem getValidToken_error_containment_witness :
    getValidToken 0 malformedDemoState = (logout malformedDemoState, .value none) ∧
    (settle 0 .failure refreshPendingDemo).storage = none :=
  ⟨(getValidToken_error_containment.1 0 malformedDemoState "notajwt" "refresh-token"
      rfl (by decide) (by decide) (by decide)).1,
   (getValidToken_error_containment.2 refreshPendingDemo 0 "refresh:k" (by decide)
      rfl).1⟩

/-- **C7.**  Missing credentials: when storage holds no record, or the stored
record lacks the access or the refresh sub-token, `getValidToken()` performs
the logout side effect (clearing storage via one `removeItem`) and resolves
`null`, issuing no transport call — the trace grows by the `removeItem` event
only. -/
theorem logout_on_missing_credentials :
    (∀ (now : Int) (s : SvcState),
        getCurrentToken s = none →
        getValidToken now s = (logout s, .value none) ∧
        (logout s).storage = none ∧
        (logout s).events = s.events ++ [.removeItem "loginData"]) ∧
    (∀ (now : Int) (s : SvcState) (tok : StoredLoginData),
        getCurrentToken s = some tok →
        tok.access = none ∨ tok.refresh = none →
        getValidToken now s = (logout s, .value none) ∧
        (logout s).storage = none ∧
        (logout s).events = s.events ++ [.removeItem "loginData"]) := by
  constructor
  · intro now s hstore
    rw [getCurrentToken, retrieveFromLocalStorage] at hstore
    refine ⟨?_, ?_, ?_⟩
    · simp [getValidToken, getCurrentToken, retrieveFromLocalStorage, hstore]
    · simp [logout, removeFromLocalStorage]
    · simp [logout, removeFromLocalStorage]
  · intro now s tok hstore hmiss
    rw [getCurrentToken, retrieveFromLocalStorage] at hstore
    have hfalsy : (jsFalsy tok.access || jsFalsy tok.refresh) = true := by
      rcases hmiss with h | h <;> simp [jsFalsy, h]
    refine ⟨?_, ?_, ?_⟩
    · simp [getValidToken, getCurrentToken, retrieveFromLocalStorage, hstore, hfalsy]
    · simp [logout, removeFromLocalStorage]
    · simp [logout, removeFromLocalStorage]

/-- Witness for `logout_on_missing_credentials`: empty storage, and a record
that carries only an access token. -/
theorem logout_on_missing_credentials_witness :
    getValidToken 0 LoginApiService.initState =
      (logout LoginApiService.initState, .value none) ∧
    getValidToken 0 missingRefreshDemoState =
      (logout missingRefreshDemoState, .value none) :=
  ⟨(logout_on_missing_credentials.1 0 LoginApiService.initState rfl).1,
   (logout_on_missing_credentials.2 0 missingRefreshDemoState ⟨some "a", none⟩ rfl
      (Or.inr rfl)).1⟩

/-- A brand service with a `getByUser` request in flight (created by a call
with query `"a"`). -/
def byUserPendingDemo : BPState :=
  { BrandProfileApiService.initState with
      getByUserPromise := some 0,
      nextPid := 1,
      getCalls := ["/brands/?query=a"] }

/-- **C8.**  A rejected login does not poison future calls: after a login's
transport rejects, nothing was persisted (storage and the event trace carry no
`setItem`), the registry entry is gone, and a subsequent `login` — with the
same or any other credentials — creates a fresh promise and invokes the
transport again instead of receiving the cached rejection. -/
theorem failed_login_allows_retry (pA pB : LoginRequestData) (s0 : SvcState)
    (hc : s0.requestCache = [])
    (hp : s0.pendingOps.lookup s0.nextPid = none) :
    (settle s0.nextPid .failure (login pA s0).1).storage = s0.storage ∧
    (settle s0.nextPid .failure (login pA s0).1).events =
      s0.events ++ [.fetchPost "/login/" (.loginBody pA)] ∧
    (settle s0.nextPid .failure (login pA s0).1).requestCache = [] ∧
    (login pB (settle s0.nextPid .failure (login pA s0).1)).2 =
      (settle s0.nextPid .failure (login pA s0).1).nextPid ∧
    (login pB (settle s0.nextPid .failure (login pA s0).1)).1.events =
      s0.events ++ [.fetchPost "/login/" (.loginBody pA),
        .fetchPost "/login/" (.loginBody pB)] := by
  have hc0 : s0.requestCache.lookup (loginCacheKey pA) = none := by
    rw [hc]
    rfl
  have hmiss := login_miss pA s0 hc0
  have hpend : List.lookup s0.nextPid
      (s0.pendingOps ++ [(s0.nextPid, PendingOp.loginOp (loginCacheKey pA))])
      = some (.loginOp (loginCacheKey pA)) := lookup_append_self s0.nextPid _ hp
  refine ⟨?_, ?_, ?_, ?_, ?_⟩ <;>
    simp [hmiss, hc, settle, hpend, doLoginSettle, mapDelete, login, List.lookup]

/-- Witness for `failed_login_allows_retry`: a rejected login for one payload
followed by a retry with another payload, from a fresh singleton. -/
theorem failed_login_allows_retry_witness :
    (settle 0 .failure (login ⟨"a@x.com", "p"⟩ LoginApiService.initState).1).storage
      = none ∧
    (login ⟨"a@x.com", "q"⟩
        (settle 0 .failure (login ⟨"a@x.com", "p"⟩ LoginApiService.initState).1)).1.events =
      [] ++ [.fetchPost "/login/" (.loginBody ⟨"a@x.com", "p"⟩),
        .fetchPost "/login/" (.loginBody ⟨"a@x.com", "q"⟩)] :=
  ⟨(failed_login_allows_retry ⟨"a@x.com", "p"⟩ ⟨"a@x.com", "q"⟩
      LoginApiService.initState rfl rfl).1,
   (failed_login_allows_retry ⟨"a@x.com", "p"⟩ ⟨"a@x.com", "q"⟩
      LoginApiService.initState rfl rfl).2.2.2.2⟩

/-- **C9.**  `logout()` is one synchronous step that removes the persisted
record and touches nothing else: the registry, the pending operations, the
settled table and the promise counter are unchanged, and the trace grows by
the single `removeItem`.  It neither awaits nor cancels in-flight work: a
refresh pending at logout time that later settles successfully still persists
its new credential. -/
theorem logout_frame_conditions :
    (∀ s : SvcState,
        (logout s).storage = none ∧
        (logout s).requestCache = s.requestCache ∧
        (logout s).pendingOps = s.pendingOps ∧
        (logout s).settled = s.settled ∧
        (logout s).nextPid = s.nextPid ∧
        (logout s).events = s.events ++ [.removeItem "loginData"]) ∧
    (∀ (s : SvcState) (pid : Nat) (k : String) (d : LoginResponseData),
        s.pendingOps.lookup pid = some (.refreshOp k) →
        (settle pid (.success d) (logout s)).storage =
          some ⟨some d.access, some d.refresh⟩) := by
  constructor
  · intro s
    exact ⟨rfl, rfl, rfl, rfl, rfl, rfl⟩
  · intro s pid k d h
    simp [settle, logout, removeFromLocalStorage, h, doRefreshSettle, storeInLocalStorage]

/-- Witness for `logout_frame_conditions`: a refresh pending at logout time
settles successfully afterwards and re-persists. -/
theorem logout_frame_conditions_witness :
    (settle 0 (.success ⟨"a2", "r2"⟩) (logout refreshPendingDemo)).storage =
      some ⟨some "a2", some "r2"⟩ :=
  logout_frame_conditions.2 refreshPendingDemo 0 "refresh:k" ⟨"a2", "r2"⟩ (by decide)

/-- **C4, counterexample.**  The claim says two concurrent
`BrandProfileApiService.getByUser` calls with different query strings never
share an outcome and each triggers its own request.  Concretely: from a fresh
service, `getByUser("a")` followed — before settlement — by `getByUser("b")`
hands both callers the same promise, and only one underlying request (for the
first call's query) was issued. -/
theorem getByUser_shares_across_queries :
    (getByUser (some "b") (getByUser (some "a") BrandProfileApiService.initState).1).2 =
      (getByUser (some "a") BrandProfileApiService.initState).2 ∧
    (getByUser (some "b")
        (getByUser (some "a") BrandProfileApiService.initState).1).1.getCalls =
      ["/brands/?query=a"] := by
  decide

/-- **C4, amended.**  `getByUser` deduplicates through a single promise field
whose key excludes the query argument: while a request is in flight, every
concurrent `getByUser` call — whatever its query — receives the in-flight
promise and triggers no request; a call that finds no request in flight issues
one whose URI is determined by its own query; the field is cleared on
settlement, so a later call starts fresh. -/
theorem getByUser_single_flight_dedup :
    (∀ (q : Option String) (s : BPState) (pid : Nat),
        s.getByUserPromise = some pid → getByUser q s = (s, pid)) ∧
    (∀ (q : Option String) (s : BPState),
        s.getByUserPromise = none →
        getByUser q s =
          ({ s with
              getByUserPromise := some s.nextPid,
              nextPid := s.nextPid + 1,
              getCalls := s.getCalls ++ [doGetByUserUri q] }, s.nextPid)) ∧
    (∀ s : BPState, (settleGetByUser s).getByUserPromise = none) := by
  refine ⟨?_, ?_, ?_⟩
  · intro q s pid h
    simp [getByUser, h]
  · intro q s h
    simp [getByUser, h]
  · intro s
    rfl

/-- Witness for `getByUser_single_flight_dedup`: with a `getByUser` request in
flight, a differently-queried call shares it; from a fresh service a call
issues its own request. -/
theorem getByUser_single_flight_dedup_witness :
    getByUser (some "b") byUserPendingDemo = (byUserPendingDemo, 0) ∧
    getByUser (some "a") BrandProfileApiService.initState =
      ({ BrandProfileApiService.initState with
          getByUserPromise := some 0,
          nextPid := 1,
          getCalls := [] ++ [doGetByUserUri (some "a")] }, 0) :=
  ⟨getByUser_single_flight_dedup.1 (some "b") byUserPendingDemo 0 rfl,
   getByUser_single_flight_dedup.2.1 (some "a") BrandProfileApiService.initState rfl⟩

/-- **C10.**  `getAll` ignores its query argument entirely: as a state
transformer, `getAll(q)` is the very same function for every `q` (including
the argument-less call), always requesting `"/brands/"`; and any burst of
concurrent `getAll` calls — whatever their queries — shares the single
underlying request and promise. -/
theorem getAll_ignores_query :
    (∀ (q q2 : Option String) (s : BPState), getAll q s = getAll q2 s) ∧
    (∀ (s : BPState) (q : Option String) (qs : List (Option String)),
        s.getAllPromise = none →
        (getAllSeq (q :: qs) s).2 = List.replicate (qs.length + 1) s.nextPid ∧
        (getAllSeq (q :: qs) s).1.getCalls = s.getCalls ++ ["/brands/"]) := by
  have hhit : ∀ (qs2 : List (Option String)) (s2 : BPState) (pid : Nat),
      s2.getAllPromise = some pid →
      getAllSeq qs2 s2 = (s2, List.replicate qs2.length pid) := by
    intro qs2
    induction qs2 with
    | nil =>
      intro s2 pid h2
      simp [getAllSeq]
    | cons q2 tl ih =>
      intro s2 pid h2
      simp [getAllSeq, getAll, h2, ih s2 pid h2, List.replicate_succ]
  constructor
  · intro q q2 s
    cases h : s.getAllPromise <;> simp [getAll, doGetAllUri, h]
  · intro s q qs h
    have hmiss : getAll q s =
        ({ s with
            getAllPromise := some s.nextPid,
            nextPid := s.nextPid + 1,
            getCalls := s.getCalls ++ ["/brands/"] }, s.nextPid) := by
      simp [getAll, doGetAllUri, h]
    constructor <;> simp [getAllSeq, hmiss, hhit, List.replicate_succ]

/-- Witness for `getAll_ignores_query`: three concurrent `getAll` calls with
three different query arguments from a fresh service. -/
theorem getAll_ignores_query_witness :
    (getAllSeq [none, some "x", some "y"] BrandProfileApiService.initState).2 =
      List.replicate 3 0 ∧
    (getAllSeq [none, some "x", some "y"] BrandProfileApiService.initState).1.getCalls =
      [] ++ ["/brands/"] :=
  getAll_ignores_query.2 BrandProfileApiService.initState none [some "x", some "y"] rfl

end Buoy
